import Mathlib

/-!
Verification development for the publish orchestration engine of
`package-publisher`.  The Rust sources under `src/` are shallowly embedded as
executable Lean definitions:

* `src/core/state_machine.rs`   → `PublishState`, `StateTransition`,
  `PublishStateData`, `PublishStateMachine` and its operations.  File I/O is
  modelled by threading the persisted snapshot (`Option PublishStateData`)
  explicitly: a successful atomic save replaces the stored snapshot, a restore
  reads it.  Timestamps (`Utc::now()`) are supplied by the caller as a `Nat`
  clock; I/O failures are outside the model (the claims below concern runs in
  which storage operations succeed).
* `src/core/retry.rs`           → `RetryOptions`, `retryLoop`,
  `RetryManager.retry`, `is_retryable_error`.  Durations and the `f64`
  backoff multiplier are modelled as rationals.
* `src/orchestration/package_publisher.rs` → `PublishOptions`,
  `PublishReport`, `merge_options_with_config` and the staged
  `PackagePublisher.publish` pipeline.  External collaborators (plugin
  detection, secrets scanner, plugin method calls, stdin confirmation) are
  modelled by an `Env` record holding the answers the outside world would
  give; `Except String` models a call that returns an error which the `?`
  operator would propagate.
* `src/orchestration/batch_publisher.rs` → `BatchPublishOptions`,
  `BatchPublishResult`, `BatchPublisher.publish_sequentially`,
  `BatchPublisher.publish_in_parallel`, `BatchPublisher.publish_to_multiple`.
-/

/-! ## State machine (src/core/state_machine.rs) -/

/-- `PublishState` from state_machine.rs lines 17-28. -/
inductive PublishState where
  | Initial
  | Detecting
  | Validating
  | DryRun
  | Confirming
  | Publishing
  | Verifying
  | Success
  | Failed
  | RolledBack
deriving DecidableEq, Repr

/-- A JSON metadata value as the state machine distinguishes them: the merge
logic in `transition` only looks at `serde_json::Value::String`; every other
JSON value is opaque to it. -/
inductive JsonLite where
  | str : String → JsonLite
  | other : JsonLite
deriving DecidableEq, Repr

/-- Metadata map (`HashMap<String, serde_json::Value>`), modelled as an
association list looked up by first match. -/
abbrev MetaMap := List (String × JsonLite)

/-- `StateTransition` from state_machine.rs lines 32-45 (`from`/`to` are
renamed `fromState`/`toState` because `from` is a Lean keyword). -/
structure StateTransition where
  fromState : PublishState
  toState : PublishState
  timestamp : Nat
  metadata : Option MetaMap
deriving DecidableEq, Repr

/-- `PublishStateData` from state_machine.rs lines 49-72. -/
structure PublishStateData where
  current_state : PublishState
  registry : Option String
  version : Option String
  transitions : List StateTransition
  can_resume : Bool
  error : Option String
deriving DecidableEq, Repr

/-- In-memory `PublishStateMachine` fields (state_machine.rs lines 75-82);
the `state_file_path` is implicit: the file content is passed around as an
`Option PublishStateData`. -/
structure PublishStateMachine where
  current_state : PublishState
  transitions : List StateTransition
  registry : Option String
  version : Option String
  error : Option String
deriving DecidableEq, Repr

/-- `PublishStateMachine::new` (state_machine.rs lines 86-97). -/
def PublishStateMachine.new : PublishStateMachine :=
  { current_state := .Initial, transitions := [], registry := none,
    version := none, error := none }

/-- `can_resume` (state_machine.rs lines 152-158): resumable iff the current
state is none of Success, Failed, Initial. -/
def PublishStateMachine.can_resume (sm : PublishStateMachine) : Bool :=
  match sm.current_state with
  | .Success => false
  | .Failed => false
  | .Initial => false
  | _ => true

/-- `get_state_data` (state_machine.rs lines 140-149). -/
def PublishStateMachine.get_state_data (sm : PublishStateMachine) :
    PublishStateData :=
  { current_state := sm.current_state, registry := sm.registry,
    version := sm.version, transitions := sm.transitions,
    can_resume := sm.can_resume, error := sm.error }

/-- The metadata merge inside `transition` (state_machine.rs lines 116-126):
for each of the keys registry, version, error, a `Value::String` entry
overwrites the field; other values are ignored. -/
def PublishStateMachine.mergeMeta (sm : PublishStateMachine)
    (metadata : Option MetaMap) : PublishStateMachine :=
  match metadata with
  | none => sm
  | some meta =>
    let sm1 :=
      match meta.lookup "registry" with
      | some (.str r) => { sm with registry := some r }
      | _ => sm
    let sm2 :=
      match meta.lookup "version" with
      | some (.str v) => { sm1 with version := some v }
      | _ => sm1
    match meta.lookup "error" with
    | some (.str e) => { sm2 with error := some e }
    | _ => sm2

/-- `save` (state_machine.rs lines 180-192): serialize `get_state_data` and
atomically replace the state file.  The returned value is the new file
content. -/
def PublishStateMachine.save (sm : PublishStateMachine) :
    Option PublishStateData :=
  some sm.get_state_data

/-- `transition` (state_machine.rs lines 100-132): append the transition
record, update the current state, merge recognized metadata keys, then
persist.  Returns the updated machine and the new persisted snapshot (the
save unconditionally overwrites the previous file content). -/
def PublishStateMachine.transition (sm : PublishStateMachine)
    (toSt : PublishState) (ts : Nat) (metadata : Option MetaMap) :
    PublishStateMachine × Option PublishStateData :=
  let t : StateTransition :=
    { fromState := sm.current_state, toState := toSt, timestamp := ts,
      metadata := metadata }
  let sm1 : PublishStateMachine :=
    { sm with transitions := sm.transitions ++ [t], current_state := toSt }
  let sm2 := sm1.mergeMeta metadata
  (sm2, sm2.save)

/-- `restore` (state_machine.rs lines 161-177): if no state file exists,
return false; otherwise load every snapshot field into the machine and
return true.  (The parse-failure path is an I/O error outside this model.) -/
def PublishStateMachine.restore (sm : PublishStateMachine)
    (storage : Option PublishStateData) : PublishStateMachine × Bool :=
  match storage with
  | none => (sm, false)
  | some data =>
    ({ sm with
        current_state := data.current_state
        registry := data.registry
        version := data.version
        error := data.error
        transitions := data.transitions }, true)

/-- `clear` (state_machine.rs lines 195-209): delete the state file and reset
the in-memory snapshot. -/
def PublishStateMachine.clear (_sm : PublishStateMachine) :
    PublishStateMachine × Option PublishStateData :=
  ({ current_state := .Initial
     transitions := []
     registry := none
     version := none
     error := none }, none)

/-- One recorded `transition` call: target state, timestamp, metadata. -/
abbrev TransitionCall := PublishState × Nat × Option MetaMap

/-- Run a sequence of `transition` calls against a machine and the persisted
snapshot, in order. -/
def applyTransitionCalls :
    PublishStateMachine × Option PublishStateData → List TransitionCall →
    PublishStateMachine × Option PublishStateData
  | p, [] => p
  | (sm, _st), (toSt, ts, md) :: rest =>
    applyTransitionCalls (sm.transition toSt ts md) rest

/-! ## Retry primitive (src/core/retry.rs) -/

/-- `RetryOptions` (retry.rs lines 12-21).  `Duration` values and the `f64`
multiplier are modelled as rationals; Rust `Duration` is unsigned, so the
delay fields of any real policy are nonnegative. -/
structure RetryOptions where
  max_attempts : Nat
  initial_delay : ℚ
  max_delay : ℚ
  backoff_multiplier : ℚ

/-- Case check of `pat.isPrefixOf hay` on character lists, written out so the
kernel can evaluate it. -/
def leadsWith : List Char → List Char → Bool
  | [], _ => true
  | _ :: _, [] => false
  | p :: ps, c :: cs => p = c && leadsWith ps cs

/-- Substring containment on character lists: `hasSub pat hay` holds iff
`pat` occurs contiguously in `hay` (Rust `str::contains`). -/
def hasSub (pat : List Char) : List Char → Bool
  | [] => leadsWith pat []
  | c :: t => leadsWith pat (c :: t) || hasSub pat t

/-- The fixed pattern list in `is_retryable_error` (retry.rs lines 143-153). -/
def retryablePatterns : List String :=
  ["ECONNREFUSED", "ENOTFOUND", "ETIMEDOUT", "ECONNRESET", "socket hang up",
   "network error", "timeout", "connection refused", "connection reset"]

/-- Lowercasing on the character list of a string (`str::to_lowercase`; the
patterns and the claims involve ASCII only, where per-character lowering
coincides with the Rust function). -/
def lowerChars (s : String) : List Char :=
  s.data.map Char.toLower

/-- `RetryManager::is_retryable_error` (retry.rs lines 139-158): the textual
description of the failure matches one of the fixed substring markers, with
both sides lowercased. -/
def is_retryable_error (error_msg : String) : Bool :=
  retryablePatterns.any fun pattern =>
    hasSub (lowerChars pattern) (lowerChars error_msg)

/-- Observable trace of one `retry` call: the returned value (`none` models
the post-loop `last_error.unwrap()` panic, reached only when the `for` loop
body never runs), the number of invocations of the operation, and the list of
delays slept, in order. -/
structure RetryTrace (ε α : Type) where
  result : Option (Except ε α)
  invocations : Nat
  sleeps : List ℚ

/-- The `for attempt in 1..=max_attempts` loop of `RetryManager::retry`
(retry.rs lines 101-133).  `idx` is the zero-based invocation index
(`attempt - 1`), `fuel` the number of remaining loop iterations
(`max_attempts - idx`), so the source condition `attempt >= max_attempts` on
a failing iteration is `fuel = 1`, that is `fuel - 1 = 0` after the fuel step.
The operation is modelled as `op : Nat → Except ε α`, giving the outcome of
its i-th invocation. -/
def retryLoop {ε α : Type} (isR : ε → Bool) (maxD mult : ℚ)
    (op : Nat → Except ε α) : Nat → Nat → ℚ → RetryTrace ε α
  | _, 0, _ => { result := none, invocations := 0, sleeps := [] }
  | idx, fuel + 1, delay =>
    match op idx with
    | .ok v => { result := some (.ok v), invocations := 1, sleeps := [] }
    | .error e =>
      if isR e = false then
        { result := some (.error e), invocations := 1, sleeps := [] }
      else if fuel = 0 then
        { result := some (.error e), invocations := 1, sleeps := [] }
      else
        let rest := retryLoop isR maxD mult op (idx + 1) fuel
          (min (delay * mult) maxD)
        { result := rest.result
          invocations := rest.invocations + 1
          sleeps := delay :: rest.sleeps }

/-- `RetryManager::retry` (retry.rs lines 95-134), parameterized by the
classifier `isR` (the source calls `self.is_retryable_error`, with the error
rendered through `Display`; instantiate `isR e := is_retryable_error
(describe e)`). -/
def RetryManager.retry {ε α : Type} (opts : RetryOptions) (isR : ε → Bool)
    (op : Nat → Except ε α) : RetryTrace ε α :=
  retryLoop isR opts.max_delay opts.backoff_multiplier op 0 opts.max_attempts
    opts.initial_delay

/-- Concrete retry policy: the `RetryOptions::default()` values (3 attempts,
1s initial delay, 30s cap, multiplier 2). -/
def optsDefault : RetryOptions :=
  { max_attempts := 3, initial_delay := 1, max_delay := 30,
    backoff_multiplier := 2 }

/-- A retry policy whose initial delay exceeds its maximum delay cap. -/
def optsBigInitial : RetryOptions :=
  { max_attempts := 3, initial_delay := 100, max_delay := 50,
    backoff_multiplier := 2 }

/-- An operation that fails once with a retryable error, then succeeds. -/
def opOneTimeout : Nat → Except String Nat :=
  fun i => if i = 0 then .error "timeout" else .ok 7

/-- An operation that always fails with a retryable error. -/
def opAlwaysTimeout : Nat → Except String Unit :=
  fun _ => .error "timeout"

/-- The delay update of one backoff round (retry.rs lines 124-127):
`delay = Duration::from_secs_f64(delay * multiplier).min(max_delay)`. -/
def nextDelay (mult maxD : ℚ) (d : ℚ) : ℚ :=
  min (d * mult) maxD

/-! ## Package publisher (src/orchestration/package_publisher.rs) -/

/-- `ProjectConfig` (config.rs lines 56-63), restricted to the field the
orchestrator reads. -/
structure ProjectConfig where
  default_registry : Option String
deriving DecidableEq, Repr

/-- `PublishOptionsConfig` (config.rs lines 311-327), restricted to the
fields the orchestrator reads. -/
structure PublishOptionsConfig where
  confirm : Option Bool
  verify : Option Bool
deriving DecidableEq, Repr

/-- `PublishConfig` (config.rs lines 10-39), restricted to the sections the
orchestrator reads. -/
structure PublishConfig where
  project : Option ProjectConfig
  publish : Option PublishOptionsConfig
deriving DecidableEq, Repr

/-- `PublishOptions` (package_publisher.rs lines 25-52). -/
structure PublishOptions where
  registry : Option String
  dry_run : Bool
  non_interactive : Bool
  resume : Bool
  skip_hooks : Bool
  hooks_only : Bool
  otp : Option String
  tag : Option String
  access : Option String
deriving DecidableEq, Repr

/-- `PublishOptions::default()`. -/
def PublishOptions.default : PublishOptions :=
  { registry := none
    dry_run := false
    non_interactive := false
    resume := false
    skip_hooks := false
    hooks_only := false
    otp := none
    tag := none
    access := none }

/-- `PublishReport` (package_publisher.rs lines 76-87); `published_at` is the
clock value at completion, `duration` is abstracted to 0 (wall-clock time is
outside the model). -/
structure PublishReport where
  success : Bool
  registry : String
  package_name : String
  version : String
  published_at : Option Nat
  verification_url : Option String
  errors : List String
  warnings : List String
  duration : Nat
  state : String
deriving DecidableEq, Repr

/-- One entry of `ValidationResult::errors` / `warnings`: a field name and a
message. -/
structure ValidationIssue where
  field : String
  message : String
deriving DecidableEq, Repr

/-- The plugin `ValidationResult` as `publish` consumes it.  The metadata
map is modelled as a string association list (`metadata.get("version")`,
`get("packageName")`, `get("name")`); the JSON rendering of the looked-up
value (`v.to_string()`) is abstracted to the string itself. -/
structure ValidationResult where
  valid : Bool
  errors : List ValidationIssue
  warnings : List ValidationIssue
  metadata : Option (List (String × String))
deriving DecidableEq, Repr

/-- The plugin dry-run result as `publish` consumes it. -/
structure DryRunResult where
  success : Bool
  errors : Option (List String)
  estimated_size : Option String
deriving DecidableEq, Repr

/-- The plugin publish result as `publish` consumes it. -/
structure PublishCmdResult where
  success : Bool
  error : Option String
deriving DecidableEq, Repr

/-- The plugin verify result as `publish` consumes it. -/
structure VerifyResult where
  verified : Bool
  url : Option String
  error : Option String
deriving DecidableEq, Repr

/-- The external world of one `PackagePublisher::publish` call: what plugin
detection reports, what the secrets scanner finds, what each plugin method
returns (`Except.error` models a call whose error the `?` operator would
propagate), and the operator answers to successive `confirm()` prompts. -/
structure Env where
  detected : List String
  findings : List String
  validation : Except String ValidationResult
  dry_run : Except String DryRunResult
  publish_result : Except String PublishCmdResult
  verify_result : Except String VerifyResult
  answers : Nat → Bool

/-- The typed errors `publish` can propagate (each case carries the data of
the corresponding `anyhow::anyhow!` message in package_publisher.rs). -/
inductive PubError where
  | external : String → PubError
  | stateNotFound : PubError
  | noRegistriesDetected : PubError
  | registryNotDetected : String → PubError
  | secretsDetected : Nat → PubError
  | validationFailed : String → PubError
  | dryRunFailed : String → PubError
  | publishingFailed : String → String → PubError
deriving DecidableEq, Repr

/-- `Display` of a propagated publish error (`e.to_string()` of the
corresponding `anyhow` error, as the batch publisher records it). -/
def PubError.describe : PubError → String
  | .external msg => msg
  | .stateNotFound => "State file not found or corrupted"
  | .noRegistriesDetected => "No registries detected"
  | .registryNotDetected name => "Registry not detected: " ++ name
  | .secretsDetected n => toString n ++ " secrets detected"
  | .validationFailed r => "Validation failed for " ++ r
  | .dryRunFailed r => "Dry-run failed for " ++ r
  | .publishingFailed r msg => "Publishing failed for " ++ r ++ ": " ++ msg

/-- The mutable per-call context of `publish`: the state machine with its
persisted snapshot, a clock supplying `Utc::now()` timestamps, the number of
`confirm()` prompts issued so far, and the ordered list of stages entered
through `transition`. -/
structure PubCtx where
  sm : PublishStateMachine
  storage : Option PublishStateData
  clock : Nat
  prompts : Nat
  stages : List PublishState

/-- Perform `self.state_machine.transition(to, None)` and advance the
clock; every `transition` call in `publish` passes `None` metadata. -/
def stepTransition (a : PubCtx) (toSt : PublishState) : PubCtx :=
  let r := a.sm.transition toSt a.clock none
  { sm := r.1
    storage := r.2
    clock := a.clock + 1
    prompts := a.prompts
    stages := a.stages ++ [toSt] }

/-- `config.publish.and_then(confirm).unwrap_or(true)`
(package_publisher.rs lines 322-325). -/
def configConfirm (cfg : Option PublishConfig) : Bool :=
  (((cfg.bind fun c => c.publish).bind fun p => p.confirm).getD true)

/-- `config.publish.and_then(verify).unwrap_or(true)`
(package_publisher.rs lines 389-392). -/
def configVerify (cfg : Option PublishConfig) : Bool :=
  (((cfg.bind fun c => c.publish).bind fun p => p.verify).getD true)

/-- `config.project.and_then(default_registry)`. -/
def configDefaultRegistry (cfg : Option PublishConfig) : Option String :=
  ((cfg.bind fun c => c.project).bind fun p => p.default_registry)

/-- `PackagePublisher::merge_options_with_config` (package_publisher.rs
lines 439-452): if no registry was requested explicitly and the loaded
configuration names a project default registry, fill the registry option
from the configuration; everything else passes through. -/
def merge_options_with_config (config : Option PublishConfig)
    (options : PublishOptions) : PublishOptions :=
  match config with
  | none => options
  | some config =>
    if options.registry = none then
      match config.project with
      | some project_config =>
        match project_config.default_registry with
        | some default_reg => { options with registry := some default_reg }
        | none => options
      | none => options
    else options

/-- Step 10 of `publish` (package_publisher.rs lines 421-435): transition to
Success and return the completed report. -/
def phaseSuccess (registry_name package_name package_version : String)
    (errors warnings : List String) (verification_url : Option String)
    (a : PubCtx) : Except PubError PublishReport × PubCtx :=
  let a2 := stepTransition a .Success
  (.ok { success := true
         registry := registry_name
         package_name := package_name
         version := package_version
         published_at := some a2.clock
         verification_url := verification_url
         errors := errors
         warnings := warnings
         duration := 0
         state := "SUCCESS" }, a2)

/-- Steps 7-9 of `publish` (package_publisher.rs lines 375-435): transition
to Publishing and call the plugin publish method; a reported failure or a
propagated error ends the attempt.  On success, when verification is
enabled, transition to Verifying and call verify: an unverified result or a
propagated verify error only appends a warning; then finish with Success. -/
def phasePublish (cfg : Option PublishConfig) (env : Env)
    (registry_name package_name package_version : String)
    (errors warnings : List String) (a : PubCtx) :
    Except PubError PublishReport × PubCtx :=
  let a2 := stepTransition a .Publishing
  match env.publish_result with
  | .error e => (.error (.external e), a2)
  | .ok publish_result =>
    if publish_result.success = false then
      (.error (.publishingFailed registry_name
        (publish_result.error.getD "Publishing failed")), a2)
    else
      if configVerify cfg = true then
        let a3 := stepTransition a2 .Verifying
        match env.verify_result with
        | .ok verify_result =>
          if verify_result.verified = true then
            phaseSuccess registry_name package_name package_version errors
              warnings verify_result.url a3
          else
            phaseSuccess registry_name package_name package_version errors
              (warnings ++ ["Verification failed: " ++
                (verify_result.error.getD "Unknown error")]) none a3
        | .error e =>
          phaseSuccess registry_name package_name package_version errors
            (warnings ++ ["Verification error: " ++ e]) none a3
      else
        phaseSuccess registry_name package_name package_version errors
          warnings none a2

/-- The hooks-only short circuit of `publish` (package_publisher.rs lines
358-373): terminate successfully with stage label DRY_RUN without reaching
Publishing. -/
def phaseHooksOnly (cfg : Option PublishConfig) (env : Env)
    (effective : PublishOptions)
    (registry_name package_name package_version : String)
    (errors warnings : List String) (a : PubCtx) :
    Except PubError PublishReport × PubCtx :=
  if effective.hooks_only = true then
    (.ok { success := true
           registry := registry_name
           package_name := package_name
           version := package_version
           published_at := none
           verification_url := none
           errors := errors
           warnings := warnings
           duration := 0
           state := "DRY_RUN" }, a)
  else
    phasePublish cfg env registry_name package_name package_version errors
      warnings a

/-- Step 6 of `publish` (package_publisher.rs lines 319-356): when
interactive, not resuming, and the configuration requires confirmation,
transition to Confirming and prompt; on decline, transition to Failed and
return a report with success=false and a "User cancelled" error. -/
def phaseConfirm (cfg : Option PublishConfig) (env : Env)
    (effective : PublishOptions)
    (registry_name package_name package_version : String)
    (errors warnings : List String) (a : PubCtx) :
    Except PubError PublishReport × PubCtx :=
  let should_confirm := !effective.non_interactive && !effective.resume &&
    configConfirm cfg
  if should_confirm = true then
    let a2 := stepTransition a .Confirming
    let answer := env.answers a2.prompts
    let a3 : PubCtx := { a2 with prompts := a2.prompts + 1 }
    if answer = false then
      let a4 := stepTransition a3 .Failed
      (.ok { success := false
             registry := registry_name
             package_name := package_name
             version := package_version
             published_at := none
             verification_url := none
             errors := ["User cancelled"]
             warnings := warnings
             duration := 0
             state := "FAILED" }, a4)
    else
      phaseHooksOnly cfg env effective registry_name package_name
        package_version errors warnings a3
  else
    phaseHooksOnly cfg env effective registry_name package_name
      package_version errors warnings a

/-- The dry-run-only return of `publish` (package_publisher.rs lines
303-317): when the caller requested a dry run, terminate successfully with
stage label DRY_RUN. -/
def phaseDryRunReturn (cfg : Option PublishConfig) (env : Env)
    (effective : PublishOptions)
    (registry_name package_name package_version : String)
    (errors warnings : List String) (a : PubCtx) :
    Except PubError PublishReport × PubCtx :=
  if effective.dry_run = true then
    (.ok { success := true
           registry := registry_name
           package_name := package_name
           version := package_version
           published_at := none
           verification_url := none
           errors := errors
           warnings := warnings
           duration := 0
           state := "DRY_RUN" }, a)
  else
    phaseConfirm cfg env effective registry_name package_name package_version
      errors warnings a

/-- Step 5 of `publish` (package_publisher.rs lines 275-301): unless skipped
(dry-run requested or resuming), transition to DryRun and execute the plugin
dry run; a reported failure or propagated error is fatal.  (On the failure
path the source pushes the reported messages into its local `errors` vector
and then returns the propagated error, dropping that vector.) -/
def phaseDryRun (cfg : Option PublishConfig) (env : Env)
    (effective : PublishOptions)
    (registry_name package_name package_version : String)
    (errors warnings : List String) (a : PubCtx) :
    Except PubError PublishReport × PubCtx :=
  let should_skip_dry_run := effective.dry_run || effective.resume
  if should_skip_dry_run = false then
    let a2 := stepTransition a .DryRun
    match env.dry_run with
    | .error e => (.error (.external e), a2)
    | .ok dry_run_result =>
      if dry_run_result.success = false then
        (.error (.dryRunFailed registry_name), a2)
      else
        phaseDryRunReturn cfg env effective registry_name package_name
          package_version errors warnings a2
  else
    phaseDryRunReturn cfg env effective registry_name package_name
      package_version errors warnings a

/-- Step 4 of `publish` (package_publisher.rs lines 239-273): transition to
Validating and call the plugin validation; an invalid result is fatal, a
valid one contributes its warnings and supplies the package name and version
from the metadata map (with fallback "unknown"). -/
def phaseValidate (cfg : Option PublishConfig) (env : Env)
    (effective : PublishOptions) (registry_name : String)
    (errors warnings : List String) (a : PubCtx) :
    Except PubError PublishReport × PubCtx :=
  let a2 := stepTransition a .Validating
  match env.validation with
  | .error e => (.error (.external e), a2)
  | .ok validation_result =>
    if validation_result.valid = false then
      (.error (.validationFailed registry_name), a2)
    else
      let warnings2 := warnings ++ validation_result.warnings.map
        (fun w => w.field ++ ": " ++ w.message)
      let package_version :=
        ((validation_result.metadata.bind fun m => m.lookup "version").getD
          "unknown")
      let package_name :=
        ((validation_result.metadata.bind fun m =>
          (m.lookup "packageName").orElse fun _ => m.lookup "name").getD
          "unknown")
      phaseDryRun cfg env effective registry_name package_name
        package_version errors warnings2 a2

/-- Step 3 of `publish` (package_publisher.rs lines 210-237): the security
gate.  Scanning is enabled unconditionally in the source.  With findings, a
warning is recorded; in interactive mode the operator must then confirm,
and a decline fails the attempt; in non-interactive mode the attempt
continues automatically. -/
def phaseScan (cfg : Option PublishConfig) (env : Env)
    (effective : PublishOptions) (registry_name : String)
    (errors warnings : List String) (a : PubCtx) :
    Except PubError PublishReport × PubCtx :=
  if env.findings.isEmpty = false then
    let warnings2 := warnings ++
      [toString env.findings.length ++ " potential secrets detected"]
    if effective.non_interactive = false then
      let answer := env.answers a.prompts
      let a2 : PubCtx := { a with prompts := a.prompts + 1 }
      if answer = false then
        (.error (.secretsDetected env.findings.length), a2)
      else
        phaseValidate cfg env effective registry_name errors warnings2 a2
    else
      phaseValidate cfg env effective registry_name errors warnings2 a
  else
    phaseValidate cfg env effective registry_name errors warnings a

/-- Step 2 of `publish` (package_publisher.rs lines 184-208): transition to
Detecting and ask the plugin loader for candidates; an empty candidate set
is fatal.  The registry used is the explicit effective option if present,
else the first detected candidate; it must itself name a detected candidate
or the attempt errors.  The attempt then proceeds with fresh, empty error
and warning vectors into the security gate. -/
def phaseDetect (cfg : Option PublishConfig) (env : Env)
    (effective : PublishOptions) (a : PubCtx) :
    Except PubError PublishReport × PubCtx :=
  let a2 := stepTransition a .Detecting
  match env.detected with
  | [] => (.error .noRegistriesDetected, a2)
  | d0 :: _ =>
    let registry_name := effective.registry.getD d0
    if env.detected.contains registry_name = false then
      (.error (.registryNotDetected registry_name), a2)
    else
      phaseScan cfg env effective registry_name [] [] a2

/-- `PackagePublisher::publish` (package_publisher.rs lines 159-436).  The
configuration has been loaded (step 0 always ends with a loaded config), the
effective options merge the caller options with it, and step 1 either
restores the persisted snapshot (resume) or clears it.  Note the source
calls `transition(Initial)` BEFORE `restore()` on the resume path, which
persists a fresh snapshot to the very file `restore` then reads. -/
def PackagePublisher.publish (cfg : PublishConfig) (env : Env)
    (options : PublishOptions) (sm0 : PublishStateMachine)
    (storage0 : Option PublishStateData) :
    Except PubError PublishReport × PubCtx :=
  let effective := merge_options_with_config (some cfg) options
  let a0 : PubCtx :=
    { sm := sm0, storage := storage0, clock := 0, prompts := 0, stages := [] }
  if effective.resume = true then
    let a := stepTransition a0 .Initial
    let r := a.sm.restore a.storage
    if r.2 = false then
      (.error .stateNotFound, a)
    else
      phaseDetect (some cfg) env effective { a with sm := r.1 }
  else
    let c := a0.sm.clear
    let a1 : PubCtx := { a0 with sm := c.1, storage := c.2 }
    let a := stepTransition a1 .Initial
    phaseDetect (some cfg) env effective a

/-! ## Batch publisher (src/orchestration/batch_publisher.rs) -/

/-- `BatchPublishOptions` (batch_publisher.rs lines 17-29).
`max_concurrency` sizes the semaphore that bounds how many spawned tasks
execute at once; it does not influence which results are collected, so it is
carried but unused by the outcome model. -/
structure BatchPublishOptions where
  sequential : Bool
  continue_on_error : Bool
  max_concurrency : Nat
  publish_options : PublishOptions
deriving Repr

/-- `BatchPublishResult` (batch_publisher.rs lines 44-59); the two hash maps
are modelled as association lists in insertion order. -/
structure BatchPublishResult where
  succeeded : List String
  failed : List (String × String)
  skipped : List String
  success : Bool
  results : List (String × PublishReport)
deriving DecidableEq, Repr

/-- The empty result `publish_to_multiple` starts from (batch_publisher.rs
lines 107-113). -/
def emptyBatchResult : BatchPublishResult :=
  { succeeded := []
    failed := []
    skipped := []
    success := false
    results := [] }

/-- Recording of one attempt outcome into the batch result: the shared body
of `publish_to_registry` (batch_publisher.rs lines 250-292) and of the
result-collection arms of `publish_in_parallel` (lines 178-236).  A report
with success goes to `succeeded`; one without goes to `failed` keyed by its
first error (or "Unknown error"); a propagated error goes to `failed` with
its rendered message and a synthetic FAILED report.  Every processed
registry gets an entry in `results`.  (The task-join-error arm of the
parallel collector is unreachable in this model: tasks do not panic.) -/
def recordOutcome (registry : String)
    (outcome : Except PubError PublishReport) (result : BatchPublishResult) :
    BatchPublishResult :=
  match outcome with
  | .ok report =>
    if report.success = true then
      { result with
          succeeded := result.succeeded ++ [registry]
          results := result.results ++ [(registry, report)] }
    else
      let error := (report.errors.head?).getD "Unknown error"
      { result with
          failed := result.failed ++ [(registry, error)]
          results := result.results ++ [(registry, report)] }
  | .error e =>
    let error_msg := e.describe
    let report : PublishReport :=
      { success := false
        registry := registry
        package_name := "unknown"
        version := "0.0.0"
        published_at := none
        verification_url := none
        errors := [error_msg]
        warnings := []
        duration := 0
        state := "FAILED" }
    { result with
        failed := result.failed ++ [(registry, error_msg)]
        results := result.results ++ [(registry, report)] }

/-- `BatchPublisher::publish_sequentially` (batch_publisher.rs lines
133-151): iterate the registries in order; once `failed` is nonempty and
continue-on-error is off, every remaining registry is pushed to `skipped`
without being attempted; otherwise the attempt runs and its outcome is
recorded.  `runOne` stands for
`Self::publish_single_registry(&self.project_path, registry, options)`. -/
def BatchPublisher.publish_sequentially
    (runOne : String → Except PubError PublishReport)
    (continue_on_error : Bool) :
    List String → BatchPublishResult → BatchPublishResult
  | [], result => result
  | registry :: rest, result =>
    if !result.failed.isEmpty && !continue_on_error then
      BatchPublisher.publish_sequentially runOne continue_on_error rest
        { result with skipped := result.skipped ++ [registry] }
    else
      BatchPublisher.publish_sequentially runOne continue_on_error rest
        (recordOutcome registry (runOne registry) result)

/-- `BatchPublisher::publish_in_parallel` (batch_publisher.rs lines
154-247): every registry gets a task spawned before any result is awaited
(the semaphore only bounds simultaneous execution); the collection loop then
awaits the tasks in submission order, records each outcome, and BREAKS once
`failed` is nonempty and continue-on-error is off, dropping the remaining
join handles so their outcomes are never recorded.  `runOne` is the outcome
of the spawned task for a registry. -/
def BatchPublisher.publish_in_parallel
    (runOne : String → Except PubError PublishReport)
    (continue_on_error : Bool) :
    List String → BatchPublishResult → BatchPublishResult
  | [], result => result
  | registry :: rest, result =>
    let result2 := recordOutcome registry (runOne registry) result
    if !result2.failed.isEmpty && !continue_on_error then
      result2
    else
      BatchPublisher.publish_in_parallel runOne continue_on_error rest result2

/-- The per-attempt options forced by `publish_single_registry`
(batch_publisher.rs lines 302-305): non-interactive mode is switched on and
the registry option is overridden with the target registry, whatever the
shared options say. -/
def batchAttemptOptions (publish_options : PublishOptions)
    (registry : String) : PublishOptions :=
  { publish_options with non_interactive := true, registry := some registry }

/-- `BatchPublisher::publish_single_registry` (batch_publisher.rs lines
295-309): build a fresh `PackagePublisher` (new state machine) and publish
with the forced batch options.  `env` is the external world of this
attempt; the persisted state file is modelled as absent at attempt start
(the claims below do not depend on its initial content). -/
def BatchPublisher.publish_single_registry (cfg : PublishConfig) (env : Env)
    (registry : String) (publish_options : PublishOptions) :
    Except PubError PublishReport × PubCtx :=
  PackagePublisher.publish cfg env (batchAttemptOptions publish_options registry)
    PublishStateMachine.new none

/-- `BatchPublisher::publish_to_multiple` (batch_publisher.rs lines 88-130):
reject an empty registry list, run the sequential or the parallel strategy,
then set overall success iff both `failed` and `skipped` are empty.
`envOf` gives each registry its external world. -/
def BatchPublisher.publish_to_multiple (cfg : PublishConfig)
    (envOf : String → Env) (registries : List String)
    (options : BatchPublishOptions) : Except String BatchPublishResult :=
  if registries.isEmpty = true then
    .error "At least one registry must be specified"
  else
    let runOne := fun r =>
      (BatchPublisher.publish_single_registry cfg (envOf r) r
        options.publish_options).1
    let result :=
      if options.sequential = true then
        BatchPublisher.publish_sequentially runOne options.continue_on_error
          registries emptyBatchResult
      else
        BatchPublisher.publish_in_parallel runOne options.continue_on_error
          registries emptyBatchResult
    .ok { result with
            success := result.failed.isEmpty && result.skipped.isEmpty }

/-! ## Concrete instances used by witnesses and counterexamples -/

/-- A configuration with no project default registry; confirmation is
disabled and verification enabled. -/
def cfgNoDefault : PublishConfig :=
  { project := none
    publish := some { confirm := some false, verify := some true } }

/-- A configuration whose project names the default registry "pypi". -/
def cfgDefaultPypi : PublishConfig :=
  { project := some { default_registry := some "pypi" }
    publish := some { confirm := some false, verify := some true } }

/-- An external world in which exactly the one given registry is detected
and every plugin call succeeds. -/
def envOkFor (r : String) : Env :=
  { detected := [r]
    findings := []
    validation := .ok
      { valid := true
        errors := []
        warnings := []
        metadata := some [("version", "1.0.0"), ("name", "pkg")] }
    dry_run := .ok { success := true, errors := none, estimated_size := none }
    publish_result := .ok { success := true, error := none }
    verify_result := .ok { verified := true, url := none, error := none }
    answers := fun _ => true }

/-- An external world in which no registry is detected. -/
def envNoDetect : Env :=
  { envOkFor "npm" with detected := [] }

/-- An external world with both npm and pypi detected (npm first). -/
def envTwoRegistries : Env :=
  { envOkFor "npm" with detected := ["npm", "pypi"] }

/-- Options requesting resume in non-interactive mode. -/
def optsResumeNI : PublishOptions :=
  { PublishOptions.default with resume := true, non_interactive := true }

/-- Default options with non-interactive mode switched on. -/
def optsPlainNI : PublishOptions :=
  { PublishOptions.default with non_interactive := true }

/-! ## Claim theorems -/

-- Decidable equality of attempt outcomes, used to evaluate concrete runs.
deriving instance DecidableEq for Except

/-- An external world identical to `envOkFor "npm"` except that
verification reports an unverified result. -/
def envVerifyFails : Env :=
  { envOkFor "npm" with
      verify_result := .ok
        { verified := false, url := none, error := some "not yet visible" } }

/-- The fresh per-call context: new state machine, no persisted file, zeroed
clock and prompt counter, no stages entered. -/
def ctx0 : PubCtx :=
  { sm := PublishStateMachine.new
    storage := none
    clock := 0
    prompts := 0
    stages := [] }

/-- An attempt outcome counted as succeeded by the batch aggregation: a
report with a true success flag. -/
def attemptSucceeds (o : Except PubError PublishReport) : Prop :=
  ∃ rep, o = .ok rep ∧ rep.success = true

/-- An attempt outcome counted as failed by the batch aggregation: a report
with a false success flag, or a propagated error. -/
def attemptFails (o : Except PubError PublishReport) : Prop :=
  (∃ rep, o = .ok rep ∧ rep.success = false) ∨ (∃ e, o = .error e)

/-- Per-registry worlds for a concrete batch: crates.io detects nothing (its
attempt fails), every other registry succeeds. -/
def envOfSeqEx : String → Env :=
  fun r => if r = "crates.io" then envNoDetect else envOkFor r

/-- The induced per-registry attempt outcome for `envOfSeqEx`, exactly as
`publish_to_multiple` builds it. -/
def runOneSeqEx : String → Except PubError PublishReport :=
  fun r => (BatchPublisher.publish_single_registry cfgNoDefault (envOfSeqEx r)
    r PublishOptions.default).1

/-- Worlds for the C2 counterexample batch: npm detects nothing (its attempt
fails immediately), every other registry succeeds. -/
def envOfBatchEx : String → Env :=
  fun r => if r = "npm" then envNoDetect else envOkFor r

/-- Concurrent batch options with continue-on-error off. -/
def batchOptsPar : BatchPublishOptions :=
  { sequential := false
    continue_on_error := false
    max_concurrency := 3
    publish_options := PublishOptions.default }

/-- The batch outcome the model computes for the C2 counterexample. -/
def batchResEx : BatchPublishResult :=
  { succeeded := []
    failed := [("npm", "No registries detected")]
    skipped := []
    success := false
    results := [("npm",
      { success := false
        registry := "npm"
        package_name := "unknown"
        version := "0.0.0"
        published_at := none
        verification_url := none
        errors := ["No registries detected"]
        warnings := []
        duration := 0
        state := "FAILED" })] }

/-! ## Theorems -/

/-! Helper lemmas for the round-trip property. -/

theorem mergeMeta_transitions (sm : PublishStateMachine)
    (md : Option MetaMap) : (sm.mergeMeta md).transitions = sm.transitions := by
  unfold PublishStateMachine.mergeMeta
  cases md with
  | none => rfl
  | some meta =>
    dsimp only
    split <;> split <;> split <;> rfl

theorem mergeMeta_current_state (sm : PublishStateMachine)
    (md : Option MetaMap) :
    (sm.mergeMeta md).current_state = sm.current_state := by
  unfold PublishStateMachine.mergeMeta
  cases md with
  | none => rfl
  | some meta =>
    dsimp only
    split <;> split <;> split <;> rfl

theorem transition_snd (sm : PublishStateMachine) (toSt : PublishState)
    (ts : Nat) (md : Option MetaMap) :
    (sm.transition toSt ts md).2 = some (sm.transition toSt ts md).1.get_state_data := rfl

theorem transition_transitions (sm : PublishStateMachine) (toSt : PublishState)
    (ts : Nat) (md : Option MetaMap) :
    (sm.transition toSt ts md).1.transitions =
      sm.transitions ++
        [({ fromState := sm.current_state
            toState := toSt
            timestamp := ts
            metadata := md } : StateTransition)] := by
  unfold PublishStateMachine.transition
  rw [mergeMeta_transitions]

theorem applyTransitionCalls_length (calls : List TransitionCall) :
    ∀ sm st, (applyTransitionCalls (sm, st) calls).1.transitions.length =
      sm.transitions.length + calls.length := by
  induction calls with
  | nil => intro sm st; simp [applyTransitionCalls]
  | cons c rest ih =>
    intro sm st
    obtain ⟨toSt, ts, md⟩ := c
    show (applyTransitionCalls (sm.transition toSt ts md) rest).1.transitions.length = _
    rw [show sm.transition toSt ts md =
        ((sm.transition toSt ts md).1, (sm.transition toSt ts md).2) from rfl]
    rw [ih]
    rw [transition_transitions]
    simp [List.length_append]
    omega

theorem applyTransitionCalls_persists (calls : List TransitionCall)
    (h : calls ≠ []) : ∀ sm st,
    (applyTransitionCalls (sm, st) calls).2 =
      some (applyTransitionCalls (sm, st) calls).1.get_state_data := by
  induction calls with
  | nil => exact absurd rfl h
  | cons c rest ih =>
    intro sm st
    obtain ⟨toSt, ts, md⟩ := c
    show (applyTransitionCalls (sm.transition toSt ts md) rest).2 = _
    by_cases hr : rest = []
    · subst hr
      show (sm.transition toSt ts md).2 = some (sm.transition toSt ts md).1.get_state_data
      exact transition_snd sm toSt ts md
    · rw [show sm.transition toSt ts md =
          ((sm.transition toSt ts md).1, (sm.transition toSt ts md).2) from rfl]
      exact ih hr _ _

/-- C6: for every nonempty sequence of successful `transition` calls starting
from a fresh machine with no persisted file, (i) the in-memory and the
persisted transition lists both have length equal to the number of calls, and
(ii) restoring a fresh state machine from the persisted snapshot succeeds and
yields exactly the in-memory current stage and transition list at the last
persist. -/
theorem state_machine_roundtrip (calls : List TransitionCall)
    (h : calls ≠ []) :
    (applyTransitionCalls (PublishStateMachine.new, none) calls).1.transitions.length
        = calls.length ∧
    (∃ d, (applyTransitionCalls (PublishStateMachine.new, none) calls).2 = some d ∧
       d.transitions.length = calls.length) ∧
    (PublishStateMachine.restore PublishStateMachine.new
        (applyTransitionCalls (PublishStateMachine.new, none) calls).2).2 = true ∧
    (PublishStateMachine.restore PublishStateMachine.new
        (applyTransitionCalls (PublishStateMachine.new, none) calls).2).1.current_state
      = (applyTransitionCalls (PublishStateMachine.new, none) calls).1.current_state ∧
    (PublishStateMachine.restore PublishStateMachine.new
        (applyTransitionCalls (PublishStateMachine.new, none) calls).2).1.transitions
      = (applyTransitionCalls (PublishStateMachine.new, none) calls).1.transitions := by
  have hlen := applyTransitionCalls_length calls PublishStateMachine.new none
  have hpersist := applyTransitionCalls_persists calls h PublishStateMachine.new none
  refine ⟨by simpa [PublishStateMachine.new] using hlen, ⟨_, hpersist, ?_⟩, ?_, ?_, ?_⟩
  · have : (applyTransitionCalls (PublishStateMachine.new, none) calls).1.get_state_data.transitions
        = (applyTransitionCalls (PublishStateMachine.new, none) calls).1.transitions := rfl
    rw [this]
    simpa [PublishStateMachine.new] using hlen
  · rw [hpersist]; simp [PublishStateMachine.restore]
  · rw [hpersist]; simp [PublishStateMachine.restore, PublishStateMachine.get_state_data]
  · rw [hpersist]; simp [PublishStateMachine.restore, PublishStateMachine.get_state_data]

/-- Witness for `state_machine_roundtrip` at a concrete two-call sequence. -/
theorem state_machine_roundtrip_witness :
    (applyTransitionCalls (PublishStateMachine.new, none)
        [(.Detecting, 0, none), (.Validating, 1, some [("registry", .str "npm")])]).1.transitions.length
      = 2 ∧
    (PublishStateMachine.restore PublishStateMachine.new
        (applyTransitionCalls (PublishStateMachine.new, none)
          [(.Detecting, 0, none), (.Validating, 1, some [("registry", .str "npm")])]).2).1.current_state
      = (applyTransitionCalls (PublishStateMachine.new, none)
          [(.Detecting, 0, none), (.Validating, 1, some [("registry", .str "npm")])]).1.current_state := by
  have h := state_machine_roundtrip
    [(.Detecting, 0, none), (.Validating, 1, some [("registry", .str "npm")])]
    (by decide)
  exact ⟨h.1, h.2.2.2.1⟩

/-! Retry loop lemmas. -/

theorem retryLoop_ok {ε α : Type} (isR : ε → Bool) (maxD mult : ℚ)
    (op : Nat → Except ε α) :
    ∀ N fuel idx delay, N < fuel →
    (∀ i, i < N → ∃ e, op (idx + i) = .error e ∧ isR e = true) →
    ∀ v, op (idx + N) = .ok v →
    (retryLoop isR maxD mult op idx fuel delay).result = some (.ok v) ∧
    (retryLoop isR maxD mult op idx fuel delay).invocations = N + 1 := by
  intro N
  induction N with
  | zero =>
    intro fuel idx delay hlt _hall v hok
    obtain ⟨fuel, rfl⟩ : ∃ f, fuel = f + 1 := ⟨fuel - 1, by omega⟩
    simp only [retryLoop]
    rw [show idx + 0 = idx from rfl] at hok
    rw [hok]
    exact ⟨rfl, rfl⟩
  | succ N ih =>
    intro fuel idx delay hlt hall v hok
    obtain ⟨fuel, rfl⟩ : ∃ f, fuel = f + 1 := ⟨fuel - 1, by omega⟩
    obtain ⟨e, he, hre⟩ := hall 0 (by omega)
    rw [show idx + 0 = idx from rfl] at he
    simp only [retryLoop, he, hre]
    have hf : ¬ fuel = 0 := by omega
    simp only [if_neg hf]
    have hall2 : ∀ i, i < N → ∃ e, op (idx + 1 + i) = .error e ∧ isR e = true := by
      intro i hi
      have := hall (i + 1) (by omega)
      rwa [show idx + (i + 1) = idx + 1 + i by omega] at this
    have hok2 : op (idx + 1 + N) = .ok v := by
      rwa [show idx + 1 + N = idx + (N + 1) by omega]
    have := ih fuel (idx + 1) (min (delay * mult) maxD) (by omega) hall2 v hok2
    exact ⟨this.1, by simp [this.2]⟩

theorem retryLoop_all_fail {ε α : Type} (isR : ε → Bool) (maxD mult : ℚ)
    (op : Nat → Except ε α) :
    ∀ fuel idx delay, 1 ≤ fuel →
    (∀ i, i < fuel → ∃ e, op (idx + i) = .error e ∧ isR e = true) →
    ∀ e, op (idx + (fuel - 1)) = .error e →
    (retryLoop isR maxD mult op idx fuel delay).result = some (.error e) ∧
    (retryLoop isR maxD mult op idx fuel delay).invocations = fuel := by
  intro fuel
  induction fuel with
  | zero => intro idx delay h; omega
  | succ fuel ih =>
    intro idx delay _h1 hall e hlast
    by_cases hf : fuel = 0
    · subst hf
      rw [show idx + (1 - 1) = idx from rfl] at hlast
      obtain ⟨e0, he0, hre0⟩ := hall 0 (by omega)
      rw [show idx + 0 = idx from rfl] at he0
      rw [he0] at hlast
      cases hlast
      simp only [retryLoop, he0, hre0]
      simp
    · obtain ⟨e0, he0, hre0⟩ := hall 0 (by omega)
      rw [show idx + 0 = idx from rfl] at he0
      simp only [retryLoop, he0, hre0]
      simp only [if_neg hf]
      have hall2 : ∀ i, i < fuel → ∃ e, op (idx + 1 + i) = .error e ∧ isR e = true := by
        intro i hi
        have := hall (i + 1) (by omega)
        rwa [show idx + (i + 1) = idx + 1 + i by omega] at this
      have hlast2 : op (idx + 1 + (fuel - 1)) = .error e := by
        rwa [show idx + 1 + (fuel - 1) = idx + (fuel + 1 - 1) by omega]
      have := ih (idx + 1) (min (delay * mult) maxD) (by omega) hall2 e hlast2
      exact ⟨this.1, by simp [this.2]⟩

theorem retryLoop_nonretryable {ε α : Type} (isR : ε → Bool) (maxD mult : ℚ)
    (op : Nat → Except ε α) (fuel idx : Nat) (delay : ℚ) (hf : 1 ≤ fuel)
    (e : ε) (he : op idx = .error e) (hnr : isR e = false) :
    (retryLoop isR maxD mult op idx fuel delay).result = some (.error e) ∧
    (retryLoop isR maxD mult op idx fuel delay).invocations = 1 := by
  obtain ⟨fuel, rfl⟩ : ∃ f, fuel = f + 1 := ⟨fuel - 1, by omega⟩
  simp only [retryLoop, he, hnr]
  simp

/-- C4: invocation counts of `retry`.  `describe` renders an error through
`Display` (the source constraint `E: std::fmt::Display`); the classifier is
the textual `is_retryable_error` check, exactly as in the source.  Under the
Retry Policy invariant `max_attempts ≥ 1`:
(a) if the operation fails with retryable errors on its first N invocations
and succeeds on invocation N+1, with N+1 ≤ max_attempts, then `retry` returns
that success after exactly N+1 invocations;
(b) if every invocation fails with a retryable error, `retry` returns the
error of the final attempt after exactly `max_attempts` invocations;
(c) a first failure whose description matches none of the markers is returned
after exactly one invocation, regardless of `max_attempts`. -/
theorem retry_invocation_counts {ε α : Type} (opts : RetryOptions)
    (describe : ε → String) (op : Nat → Except ε α)
    (hmax : 1 ≤ opts.max_attempts) :
    (∀ N v, (∀ i, i < N → ∃ e, op i = .error e ∧
        is_retryable_error (describe e) = true) →
      op N = .ok v → N + 1 ≤ opts.max_attempts →
      (RetryManager.retry opts (fun e => is_retryable_error (describe e))
          op).result = some (.ok v) ∧
      (RetryManager.retry opts (fun e => is_retryable_error (describe e))
          op).invocations = N + 1) ∧
    ((∀ i, i < opts.max_attempts → ∃ e, op i = .error e ∧
        is_retryable_error (describe e) = true) →
      ∀ e, op (opts.max_attempts - 1) = .error e →
      (RetryManager.retry opts (fun e => is_retryable_error (describe e))
          op).result = some (.error e) ∧
      (RetryManager.retry opts (fun e => is_retryable_error (describe e))
          op).invocations = opts.max_attempts) ∧
    (∀ e, op 0 = .error e → is_retryable_error (describe e) = false →
      (RetryManager.retry opts (fun e => is_retryable_error (describe e))
          op).result = some (.error e) ∧
      (RetryManager.retry opts (fun e => is_retryable_error (describe e))
          op).invocations = 1) := by
  refine ⟨?_, ?_, ?_⟩
  · intro N v hall hok hle
    have := retryLoop_ok (fun e => is_retryable_error (describe e))
      opts.max_delay opts.backoff_multiplier op N opts.max_attempts 0
      opts.initial_delay (by omega) (by simpa using hall) v (by simpa using hok)
    exact this
  · intro hall e hlast
    have := retryLoop_all_fail (fun e => is_retryable_error (describe e))
      opts.max_delay opts.backoff_multiplier op opts.max_attempts 0
      opts.initial_delay hmax (by simpa using hall) e (by simpa using hlast)
    exact this
  · intro e he hnr
    exact retryLoop_nonretryable (fun e => is_retryable_error (describe e))
      opts.max_delay opts.backoff_multiplier op opts.max_attempts 0
      opts.initial_delay hmax e he hnr

/-- Witness for `retry_invocation_counts` at a concrete policy and operation:
one retryable timeout, then success on the second invocation. -/
theorem retry_invocation_counts_witness :
    (RetryManager.retry optsDefault
        (fun e => is_retryable_error ((fun s => s) e)) opOneTimeout).result
      = some (.ok 7) ∧
    (RetryManager.retry optsDefault
        (fun e => is_retryable_error ((fun s => s) e)) opOneTimeout).invocations
      = 2 := by
  have h := (retry_invocation_counts optsDefault (fun s => s) opOneTimeout
      (by decide)).1 1 7
    (by
      intro i hi
      have hi0 : i = 0 := by omega
      subst hi0
      exact ⟨"timeout", rfl, by decide⟩)
    rfl (by decide)
  exact h

theorem retryLoop_returns_op {ε α : Type} (isR : ε → Bool) (maxD mult : ℚ)
    (op : Nat → Except ε α) :
    ∀ fuel idx delay, 1 ≤ fuel →
    ∃ n, n < fuel ∧
      (retryLoop isR maxD mult op idx fuel delay).result = some (op (idx + n)) ∧
      (retryLoop isR maxD mult op idx fuel delay).invocations = n + 1 := by
  intro fuel
  induction fuel with
  | zero => intro idx delay h; omega
  | succ fuel ih =>
    intro idx delay _h1
    cases hop : op idx with
    | ok v =>
      refine ⟨0, by omega, ?_, ?_⟩ <;> simp [retryLoop, hop]
    | error e =>
      by_cases hre : isR e = false
      · refine ⟨0, by omega, ?_, ?_⟩ <;> simp [retryLoop, hop, hre]
      · rw [Bool.not_eq_false] at hre
        by_cases hf : fuel = 0
        · subst hf
          refine ⟨0, by omega, ?_, ?_⟩ <;> simp [retryLoop, hop, hre]
        · obtain ⟨n, hn, hres, hinv⟩ := ih (idx + 1) (min (delay * mult) maxD)
            (by omega)
          refine ⟨n + 1, by omega, ?_, ?_⟩
          · simp only [retryLoop, hop, hre, if_neg hf]
            simp only [Bool.true_eq_false, if_false]
            rw [show idx + (n + 1) = idx + 1 + n by omega]
            exact hres
          · simp only [retryLoop, hop, hre, if_neg hf]
            simp only [Bool.true_eq_false, if_false]
            rw [hinv]

/-- C8: under the Retry Policy invariant `max_attempts ≥ 1`, `retry` always
returns `some` outcome, and that outcome is the operation result of its last
invocation (a success value or one of the operation errors); the post-loop
`last_error.unwrap()` fallback, modelled by a `none` result, is unreachable,
so `retry` never panics. -/
theorem retry_never_panics {ε α : Type} (opts : RetryOptions) (isR : ε → Bool)
    (op : Nat → Except ε α) (hmax : 1 ≤ opts.max_attempts) :
    ∃ n, n < opts.max_attempts ∧
      (RetryManager.retry opts isR op).result = some (op n) ∧
      (RetryManager.retry opts isR op).invocations = n + 1 := by
  obtain ⟨n, hn, hres, hinv⟩ := retryLoop_returns_op isR opts.max_delay
    opts.backoff_multiplier op opts.max_attempts 0 opts.initial_delay hmax
  exact ⟨n, hn, by simpa using hres, hinv⟩

/-- Witness for `retry_never_panics`: the always-failing operation at the
default policy. -/
theorem retry_never_panics_witness :
    ∃ n, n < optsDefault.max_attempts ∧
      (RetryManager.retry optsDefault
          (fun e => is_retryable_error e) opAlwaysTimeout).result
        = some (opAlwaysTimeout n) ∧
      (RetryManager.retry optsDefault
          (fun e => is_retryable_error e) opAlwaysTimeout).invocations = n + 1 :=
  retry_never_panics optsDefault (fun e => is_retryable_error e)
    opAlwaysTimeout (by decide)

theorem retryLoop_sleeps_get {ε α : Type} (isR : ε → Bool) (maxD mult : ℚ)
    (op : Nat → Except ε α) :
    ∀ fuel idx delay j d,
      (retryLoop isR maxD mult op idx fuel delay).sleeps.get? j = some d →
      d = (nextDelay mult maxD)^[j] delay := by
  intro fuel
  induction fuel with
  | zero => intro idx delay j d h; simp [retryLoop] at h
  | succ fuel ih =>
    intro idx delay j d h
    cases hop : op idx with
    | ok v => simp [retryLoop, hop] at h
    | error e =>
      by_cases hre : isR e = false
      · simp [retryLoop, hop, hre] at h
      · rw [Bool.not_eq_false] at hre
        by_cases hf : fuel = 0
        · subst hf; simp [retryLoop, hop, hre] at h
        · simp only [retryLoop, hop, hre, if_neg hf] at h
          simp only [Bool.true_eq_false, if_false] at h
          cases j with
          | zero =>
            simp at h
            simp [h.symm]
          | succ j =>
            simp only [List.get?_cons_succ] at h
            have := ih (idx + 1) (min (delay * mult) maxD) j d h
            rw [this, Function.iterate_succ_apply]
            rfl

theorem iterate_nextDelay_closed (mult maxD : ℚ) (hm : 1 ≤ mult)
    (hd : 0 ≤ maxD) (initial : ℚ) :
    ∀ j, 1 ≤ j →
      (nextDelay mult maxD)^[j] initial = min (initial * mult ^ j) maxD := by
  intro j
  induction j with
  | zero => intro h; omega
  | succ j ih =>
    intro _h
    by_cases hj : j = 0
    · subst hj
      simp [nextDelay]
    · have hclosed := ih (by omega)
      rw [Function.iterate_succ_apply', hclosed]
      unfold nextDelay
      rcases le_total (initial * mult ^ j) maxD with hle | hle
      · rw [min_eq_left hle, pow_succ, ← mul_assoc]
      · rw [min_eq_right hle]
        have h1 : maxD ≤ maxD * mult := le_mul_of_one_le_right hd hm
        have h2 : maxD ≤ initial * mult ^ (j + 1) := by
          have h3 : initial * mult ^ j * mult ≥ maxD * mult := by
            apply mul_le_mul_of_nonneg_right hle (by linarith)
          calc maxD ≤ maxD * mult := h1
            _ ≤ initial * mult ^ j * mult := h3
            _ = initial * mult ^ (j + 1) := by rw [pow_succ, mul_assoc]
        rw [min_eq_right h1, min_eq_right h2]

theorem retryLoop_sleeps_length {ε α : Type} (isR : ε → Bool) (maxD mult : ℚ)
    (op : Nat → Except ε α) :
    ∀ fuel idx delay r,
      (retryLoop isR maxD mult op idx fuel delay).result = some r →
      (retryLoop isR maxD mult op idx fuel delay).sleeps.length + 1 =
        (retryLoop isR maxD mult op idx fuel delay).invocations := by
  intro fuel
  induction fuel with
  | zero => intro idx delay r h; simp [retryLoop] at h
  | succ fuel ih =>
    intro idx delay r h
    cases hop : op idx with
    | ok v => simp [retryLoop, hop]
    | error e =>
      by_cases hre : isR e = false
      · simp [retryLoop, hop, hre]
      · rw [Bool.not_eq_false] at hre
        by_cases hf : fuel = 0
        · subst hf; simp [retryLoop, hop, hre]
        · simp only [retryLoop, hop, hre, if_neg hf] at h ⊢
          simp only [Bool.true_eq_false, if_false] at h ⊢
          simp only [List.length_cons]
          have := ih (idx + 1) (min (delay * mult) maxD) r h
          omega

theorem retryLoop_invocations_le {ε α : Type} (isR : ε → Bool) (maxD mult : ℚ)
    (op : Nat → Except ε α) :
    ∀ fuel idx delay,
      (retryLoop isR maxD mult op idx fuel delay).invocations ≤ fuel := by
  intro fuel
  induction fuel with
  | zero => intro idx delay; simp [retryLoop]
  | succ fuel ih =>
    intro idx delay
    cases hop : op idx with
    | ok v => simp [retryLoop, hop]
    | error e =>
      by_cases hre : isR e = false
      · simp [retryLoop, hop, hre]
      · rw [Bool.not_eq_false] at hre
        by_cases hf : fuel = 0
        · subst hf; simp [retryLoop, hop, hre]
        · simp only [retryLoop, hop, hre, if_neg hf]
          simp only [Bool.true_eq_false, if_false]
          have := ih (idx + 1) (min (delay * mult) maxD)
          omega

/-- C7 counterexample: with initial delay 100, maximum delay 50 and
multiplier 2, the delay slept after the first failed attempt is the raw
initial delay 100, while the claimed formula min(initial × multiplier^k,
max delay) is at most 50 for every k — the first sleep is not capped by the
maximum delay. -/
theorem retry_first_delay_uncapped :
    (RetryManager.retry optsBigInitial
        (fun e => is_retryable_error e) opAlwaysTimeout).sleeps.head?
      = some 100 ∧
    min ((100 : ℚ) * 2 ^ 0) 50 = 50 ∧
    min ((100 : ℚ) * 2 ^ 1) 50 = 50 ∧
    (100 : ℚ) ≠ 50 := by
  refine ⟨by decide, by norm_num, by norm_num, by norm_num⟩

/-- C7 (amended): the delay slept after failed attempt k (1-based) is the
raw, uncapped initial delay for k = 1, and equals
min(initial × multiplier^(k−1), max delay) for k ≥ 2 whenever the multiplier
is at least 1 and the delay cap is nonnegative (both hold for every real
policy: Rust durations are unsigned and the backoff is a growth factor);
moreover whenever `retry` returns, the number of sleeps is exactly one less
than the number of invocations — so no sleep follows the final attempt, nor
a non-retryable failure (either of which ends the run) — and the number of
invocations never exceeds `max_attempts`. -/
theorem retry_backoff_delays {ε α : Type} (opts : RetryOptions)
    (isR : ε → Bool) (op : Nat → Except ε α)
    (hm : 1 ≤ opts.backoff_multiplier) (hd : 0 ≤ opts.max_delay) :
    (∀ k d, 1 ≤ k →
      (RetryManager.retry opts isR op).sleeps.get? (k - 1) = some d →
      (k = 1 → d = opts.initial_delay) ∧
      (2 ≤ k →
        d = min (opts.initial_delay * opts.backoff_multiplier ^ (k - 1))
          opts.max_delay)) ∧
    (∀ r, (RetryManager.retry opts isR op).result = some r →
      (RetryManager.retry opts isR op).sleeps.length + 1 =
        (RetryManager.retry opts isR op).invocations) ∧
    (RetryManager.retry opts isR op).invocations ≤ opts.max_attempts := by
  refine ⟨?_, ?_, ?_⟩
  · intro k d _hk hget
    have hiter := retryLoop_sleeps_get isR opts.max_delay
      opts.backoff_multiplier op opts.max_attempts 0 opts.initial_delay
      (k - 1) d hget
    constructor
    · intro hk1
      subst hk1
      simpa using hiter
    · intro hk2
      rw [hiter]
      exact iterate_nextDelay_closed opts.backoff_multiplier opts.max_delay
        hm hd opts.initial_delay (k - 1) (by omega)
  · intro r h
    exact retryLoop_sleeps_length isR opts.max_delay opts.backoff_multiplier
      op opts.max_attempts 0 opts.initial_delay r h
  · exact retryLoop_invocations_le isR opts.max_delay opts.backoff_multiplier
      op opts.max_attempts 0 opts.initial_delay

/-- Witness for `retry_backoff_delays` at the default policy with an
always-failing retryable operation: the second sleep (k = 2) equals
min(1 × 2^1, 30) = 2, and at most 3 invocations happen. -/
theorem retry_backoff_delays_witness :
    (RetryManager.retry optsDefault
        (fun e => is_retryable_error e) opAlwaysTimeout).invocations ≤ 3 ∧
    (2 : ℚ) = min ((1 : ℚ) * 2 ^ (2 - 1)) 30 := by
  have h := retry_backoff_delays optsDefault
    (fun e => is_retryable_error e) opAlwaysTimeout (by norm_num [optsDefault])
    (by norm_num [optsDefault])
  have hre : is_retryable_error "timeout" = true := by decide
  have hget : (RetryManager.retry optsDefault
      (fun e => is_retryable_error e) opAlwaysTimeout).sleeps.get? (2 - 1)
      = some 2 := by
    show (retryLoop (fun e => is_retryable_error e) 30 2 opAlwaysTimeout
        0 3 1).sleeps.get? 1 = some 2
    simp only [retryLoop, opAlwaysTimeout, hre]
    norm_num
  have h2 := (h.1 2 2 (by omega) hget).2 (by omega)
  exact ⟨h.2.2, by simpa [optsDefault] using h2⟩

/-- C1: a publish attempt with resume requested and NO persisted state file
does not fail with the "no resumable state" error and does enter the
Detecting stage; the attempt even completes successfully.  This is because
`publish` calls `transition(Initial)` before `restore()` on the resume path,
and that transition persists a fresh snapshot to the very file `restore`
then reads, so `restore` always reports an existing snapshot. -/
theorem resume_without_state_reaches_detection :
    (PackagePublisher.publish cfgNoDefault (envOkFor "npm") optsResumeNI
        PublishStateMachine.new none).1
      ≠ .error .stateNotFound ∧
    (PackagePublisher.publish cfgNoDefault (envOkFor "npm") optsResumeNI
        PublishStateMachine.new none).2.stages.contains .Detecting = true ∧
    (PackagePublisher.publish cfgNoDefault (envOkFor "npm") optsResumeNI
        PublishStateMachine.new none).1.isOk = true := by
  refine ⟨by decide, by decide, by decide⟩

/-- C3 counterexample: with no explicit registry override, npm detected
first and pypi second, and "pypi" configured as the project default
registry, the attempt publishes to "pypi", not to the first detected
candidate "npm" — the configured default takes precedence over the first
detected candidate. -/
theorem registry_selection_counterexample :
    envTwoRegistries.detected.head? = some "npm" ∧
    optsPlainNI.registry = none ∧
    configDefaultRegistry (some cfgDefaultPypi) = some "pypi" ∧
    Except.map (fun r => r.registry)
        (PackagePublisher.publish cfgDefaultPypi envTwoRegistries optsPlainNI
          PublishStateMachine.new none).1
      = .ok "pypi" ∧
    ("pypi" : String) ≠ "npm" := by
  refine ⟨by decide, by decide, by decide, by decide, by decide⟩

/-- C3 (amended): the registry name used by a single-target attempt — the
expression `effective_options.registry.unwrap_or(first detected)` computed
over the merged options — follows the precedence: explicit caller override
first, else the project configured default registry, else the first
detected candidate. -/
theorem registry_selection_amended (cfg : Option PublishConfig)
    (options : PublishOptions) (d0 : String) :
    (merge_options_with_config cfg options).registry.getD d0
      = options.registry.getD ((configDefaultRegistry cfg).getD d0) ∧
    (∀ r, options.registry = some r →
      (merge_options_with_config cfg options).registry.getD d0 = r) ∧
    (options.registry = none → ∀ d, configDefaultRegistry cfg = some d →
      (merge_options_with_config cfg options).registry.getD d0 = d) ∧
    (options.registry = none → configDefaultRegistry cfg = none →
      (merge_options_with_config cfg options).registry.getD d0 = d0) := by
  have key : (merge_options_with_config cfg options).registry.getD d0
      = options.registry.getD ((configDefaultRegistry cfg).getD d0) := by
    unfold merge_options_with_config configDefaultRegistry
    cases cfg with
    | none => simp
    | some c =>
      cases hor : options.registry with
      | some r => simp [hor]
      | none =>
        cases hpc : c.project with
        | none => simp [hor, hpc]
        | some pc =>
          cases hdr : pc.default_registry with
          | none => simp [hor, hpc, hdr]
          | some d => simp [hor, hpc, hdr]
  refine ⟨key, ?_, ?_, ?_⟩
  · intro r hr
    rw [key, hr]
    rfl
  · intro hn d hd
    rw [key, hn, hd]
    rfl
  · intro hn hd
    rw [key, hn, hd]
    rfl

/-- Witness for `registry_selection_amended`: with no override and a
configured default "pypi", the selected name is "pypi" even when "npm" is
the first detected candidate. -/
theorem registry_selection_amended_witness :
    (merge_options_with_config (some cfgDefaultPypi) optsPlainNI).registry.getD
        "npm" = "pypi" := by
  have h := (registry_selection_amended (some cfgDefaultPypi) optsPlainNI
    "npm").2.2.1 rfl "pypi" (by decide)
  exact h

/-- C9: when verification is enabled and the publish step has succeeded, a
verification failure (unverified result) or a verification exception
(propagated error) is downgraded: the attempt still returns a report with
success=true and terminal stage label SUCCESS, the Success stage is entered
after Publishing and Verifying, and the verification problem is appended to
the warnings list while the errors list is left untouched. -/
theorem verification_downgraded_to_warning (cfg : Option PublishConfig)
    (env : Env) (registry_name package_name package_version : String)
    (errors warnings : List String) (a : PubCtx)
    (henabled : configVerify cfg = true)
    (hpub : ∃ pr, env.publish_result = .ok pr ∧ pr.success = true)
    (hfail : (∃ vr, env.verify_result = .ok vr ∧ vr.verified = false) ∨
      (∃ e, env.verify_result = .error e)) :
    ∃ report w,
      (phasePublish cfg env registry_name package_name package_version
          errors warnings a).1 = .ok report ∧
      report.success = true ∧
      report.state = "SUCCESS" ∧
      report.warnings = warnings ++ [w] ∧
      report.errors = errors ∧
      (phasePublish cfg env registry_name package_name package_version
          errors warnings a).2.stages
        = a.stages ++ [.Publishing, .Verifying, .Success] := by
  obtain ⟨pr, hpr, hprs⟩ := hpub
  have hstages : ∀ w : String,
      (phaseSuccess registry_name package_name package_version errors
        (warnings ++ [w]) none
        (stepTransition (stepTransition a .Publishing) .Verifying)).2.stages
      = a.stages ++ [.Publishing, .Verifying, .Success] := by
    intro w
    simp [phaseSuccess, stepTransition]
  rcases hfail with ⟨vr, hvr, hnv⟩ | ⟨e, hvr⟩
  · have hred : phasePublish cfg env registry_name package_name
        package_version errors warnings a
        = phaseSuccess registry_name package_name package_version errors
          (warnings ++ ["Verification failed: " ++
            (vr.error.getD "Unknown error")]) none
          (stepTransition (stepTransition a .Publishing) .Verifying) := by
      simp [phasePublish, hpr, hprs, henabled, hvr, hnv]
    refine ⟨{ success := true
              registry := registry_name
              package_name := package_name
              version := package_version
              published_at := some (a.clock + 1 + 1 + 1)
              verification_url := none
              errors := errors
              warnings := warnings ++ ["Verification failed: " ++
                (vr.error.getD "Unknown error")]
              duration := 0
              state := "SUCCESS" },
      "Verification failed: " ++ (vr.error.getD "Unknown error"),
      ?_, rfl, rfl, rfl, rfl, ?_⟩
    · rw [hred]
      rfl
    · rw [hred]
      exact hstages _
  · have hred : phasePublish cfg env registry_name package_name
        package_version errors warnings a
        = phaseSuccess registry_name package_name package_version errors
          (warnings ++ ["Verification error: " ++ e]) none
          (stepTransition (stepTransition a .Publishing) .Verifying) := by
      simp [phasePublish, hpr, hprs, henabled, hvr]
    refine ⟨{ success := true
              registry := registry_name
              package_name := package_name
              version := package_version
              published_at := some (a.clock + 1 + 1 + 1)
              verification_url := none
              errors := errors
              warnings := warnings ++ ["Verification error: " ++ e]
              duration := 0
              state := "SUCCESS" },
      "Verification error: " ++ e, ?_, rfl, rfl, rfl, rfl, ?_⟩
    · rw [hred]
      rfl
    · rw [hred]
      exact hstages _

/-- Witness for `verification_downgraded_to_warning` at a concrete world
whose verify call reports an unverified result. -/
theorem verification_downgraded_to_warning_witness :
    ∃ report w,
      (phasePublish (some cfgNoDefault) envVerifyFails "npm" "pkg" "1.0.0"
          [] [] ctx0).1 = .ok report ∧
      report.success = true ∧
      report.state = "SUCCESS" ∧
      report.warnings = [] ++ [w] ∧
      report.errors = [] ∧
      (phasePublish (some cfgNoDefault) envVerifyFails "npm" "pkg" "1.0.0"
          [] [] ctx0).2.stages
        = ctx0.stages ++ [.Publishing, .Verifying, .Success] :=
  verification_downgraded_to_warning (some cfgNoDefault) envVerifyFails
    "npm" "pkg" "1.0.0" [] [] ctx0 (by decide)
    ⟨{ success := true, error := none }, rfl, rfl⟩
    (.inl ⟨{ verified := false, url := none, error := some "not yet visible" },
      rfl, rfl⟩)

/-! Prompt bookkeeping: the only two `confirm()` call sites are the security
gate and the pre-publish confirmation, both guarded by interactive mode. -/

theorem stepTransition_prompts (a : PubCtx) (s : PublishState) :
    (stepTransition a s).prompts = a.prompts := rfl

theorem phaseSuccess_prompts (rn pn pv : String) (errors warnings : List String)
    (url : Option String) (a : PubCtx) :
    (phaseSuccess rn pn pv errors warnings url a).2.prompts = a.prompts := rfl

theorem phasePublish_prompts (cfg : Option PublishConfig) (env : Env)
    (rn pn pv : String) (errors warnings : List String) (a : PubCtx) :
    (phasePublish cfg env rn pn pv errors warnings a).2.prompts = a.prompts := by
  unfold phasePublish
  cases env.publish_result with
  | error e => rfl
  | ok pr =>
    dsimp only
    split
    · rfl
    · split
      · cases env.verify_result with
        | ok vr =>
          dsimp only
          split <;> simp [phaseSuccess_prompts, stepTransition_prompts]
        | error e => simp [phaseSuccess_prompts, stepTransition_prompts]
      · simp [phaseSuccess_prompts, stepTransition_prompts]

theorem phaseHooksOnly_prompts (cfg : Option PublishConfig) (env : Env)
    (effective : PublishOptions) (rn pn pv : String)
    (errors warnings : List String) (a : PubCtx) :
    (phaseHooksOnly cfg env effective rn pn pv errors warnings a).2.prompts
      = a.prompts := by
  unfold phaseHooksOnly
  split
  · rfl
  · exact phasePublish_prompts cfg env rn pn pv errors warnings a

theorem phaseConfirm_prompts (cfg : Option PublishConfig) (env : Env)
    (effective : PublishOptions) (rn pn pv : String)
    (errors warnings : List String) (a : PubCtx)
    (h : effective.non_interactive = true) :
    (phaseConfirm cfg env effective rn pn pv errors warnings a).2.prompts
      = a.prompts := by
  unfold phaseConfirm
  have hsc : (!effective.non_interactive && !effective.resume &&
      configConfirm cfg) = false := by
    rw [h]
    simp
  rw [hsc]
  simp only [Bool.false_eq_true, if_false]
  exact phaseHooksOnly_prompts cfg env effective rn pn pv errors warnings a

theorem phaseDryRunReturn_prompts (cfg : Option PublishConfig) (env : Env)
    (effective : PublishOptions) (rn pn pv : String)
    (errors warnings : List String) (a : PubCtx)
    (h : effective.non_interactive = true) :
    (phaseDryRunReturn cfg env effective rn pn pv errors warnings a).2.prompts
      = a.prompts := by
  unfold phaseDryRunReturn
  split
  · rfl
  · exact phaseConfirm_prompts cfg env effective rn pn pv errors warnings a h

theorem phaseDryRun_prompts (cfg : Option PublishConfig) (env : Env)
    (effective : PublishOptions) (rn pn pv : String)
    (errors warnings : List String) (a : PubCtx)
    (h : effective.non_interactive = true) :
    (phaseDryRun cfg env effective rn pn pv errors warnings a).2.prompts
      = a.prompts := by
  unfold phaseDryRun
  dsimp only
  split
  · cases env.dry_run with
    | error e => rfl
    | ok dr =>
      dsimp only
      split
      · rfl
      · rw [phaseDryRunReturn_prompts cfg env effective rn pn pv errors
          warnings _ h]
        rfl
  · exact phaseDryRunReturn_prompts cfg env effective rn pn pv errors
      warnings a h

theorem phaseValidate_prompts (cfg : Option PublishConfig) (env : Env)
    (effective : PublishOptions) (rn : String)
    (errors warnings : List String) (a : PubCtx)
    (h : effective.non_interactive = true) :
    (phaseValidate cfg env effective rn errors warnings a).2.prompts
      = a.prompts := by
  unfold phaseValidate
  cases env.validation with
  | error e => rfl
  | ok vr =>
    dsimp only
    split
    · rfl
    · rw [phaseDryRun_prompts cfg env effective rn _ _ errors _ _ h]
      rfl

theorem phaseScan_prompts (cfg : Option PublishConfig) (env : Env)
    (effective : PublishOptions) (rn : String)
    (errors warnings : List String) (a : PubCtx)
    (h : effective.non_interactive = true) :
    (phaseScan cfg env effective rn errors warnings a).2.prompts
      = a.prompts := by
  unfold phaseScan
  split
  · rw [h]
    simp only [Bool.true_eq_false, if_false]
    exact phaseValidate_prompts cfg env effective rn errors _ a h
  · exact phaseValidate_prompts cfg env effective rn errors warnings a h

theorem phaseDetect_prompts (cfg : Option PublishConfig) (env : Env)
    (effective : PublishOptions) (a : PubCtx)
    (h : effective.non_interactive = true) :
    (phaseDetect cfg env effective a).2.prompts = a.prompts := by
  unfold phaseDetect
  cases env.detected with
  | nil => rfl
  | cons d0 ds =>
    dsimp only
    split
    · rfl
    · rw [phaseScan_prompts cfg env effective _ [] [] _ h]
      rfl

theorem merge_non_interactive (cfg : Option PublishConfig)
    (options : PublishOptions) :
    (merge_options_with_config cfg options).non_interactive
      = options.non_interactive := by
  unfold merge_options_with_config
  cases cfg with
  | none => rfl
  | some c =>
    dsimp only
    split
    · split <;> first | (split <;> rfl) | rfl
    · rfl

theorem publish_prompts (cfg : PublishConfig) (env : Env)
    (options : PublishOptions) (sm0 : PublishStateMachine)
    (storage0 : Option PublishStateData)
    (h : options.non_interactive = true) :
    (PackagePublisher.publish cfg env options sm0 storage0).2.prompts = 0 := by
  have heff : (merge_options_with_config (some cfg) options).non_interactive
      = true := by rw [merge_non_interactive]; exact h
  unfold PackagePublisher.publish
  dsimp only
  split
  · split
    · rfl
    · rw [phaseDetect_prompts (some cfg) env _ _ heff]
      rfl
  · rw [phaseDetect_prompts (some cfg) env _ _ heff]
    rfl

/-- C10: every batch per-registry attempt runs with non-interactive mode
forced on and with the registry option overridden to the target registry,
whatever the shared options said; consequently the attempt never issues an
operator prompt (zero `confirm()` calls).  Both the sequential and the
concurrent strategy of `publish_to_multiple` run their attempts through
`publish_single_registry`, which builds exactly these options. -/
theorem batch_attempts_never_prompt (cfg : PublishConfig) (env : Env)
    (registry : String) (publish_options : PublishOptions) :
    (batchAttemptOptions publish_options registry).non_interactive = true ∧
    (batchAttemptOptions publish_options registry).registry = some registry ∧
    (BatchPublisher.publish_single_registry cfg env registry
        publish_options).2.prompts = 0 :=
  ⟨rfl, rfl,
    publish_prompts cfg env (batchAttemptOptions publish_options registry)
      PublishStateMachine.new none rfl⟩

theorem recordOutcome_success (registry : String)
    (o : Except PubError PublishReport) (acc : BatchPublishResult)
    (h : attemptSucceeds o) :
    (recordOutcome registry o acc).succeeded = acc.succeeded ++ [registry] ∧
    (recordOutcome registry o acc).failed = acc.failed ∧
    (recordOutcome registry o acc).skipped = acc.skipped ∧
    (recordOutcome registry o acc).results.map Prod.fst
      = acc.results.map Prod.fst ++ [registry] := by
  obtain ⟨rep, ho, hs⟩ := h
  subst ho
  simp [recordOutcome, hs]

theorem recordOutcome_failure (registry : String)
    (o : Except PubError PublishReport) (acc : BatchPublishResult)
    (h : attemptFails o) :
    (recordOutcome registry o acc).succeeded = acc.succeeded ∧
    (∃ msg, (recordOutcome registry o acc).failed
      = acc.failed ++ [(registry, msg)]) ∧
    (recordOutcome registry o acc).skipped = acc.skipped ∧
    (recordOutcome registry o acc).results.map Prod.fst
      = acc.results.map Prod.fst ++ [registry] := by
  rcases h with ⟨rep, ho, hs⟩ | ⟨e, ho⟩
  · subst ho
    simp [recordOutcome, hs]
  · subst ho
    simp [recordOutcome]

theorem seq_all_success (runOne : String → Except PubError PublishReport)
    (pre : List String) :
    ∀ (acc : BatchPublishResult) (l : List String), acc.failed = [] →
    (∀ x ∈ pre, attemptSucceeds (runOne x)) →
    ∃ acc2, BatchPublisher.publish_sequentially runOne false (pre ++ l) acc
        = BatchPublisher.publish_sequentially runOne false l acc2 ∧
      acc2.succeeded = acc.succeeded ++ pre ∧
      acc2.failed = [] ∧
      acc2.skipped = acc.skipped := by
  induction pre with
  | nil => intro acc l hf _; exact ⟨acc, by simp, by simp, hf, rfl⟩
  | cons x pre ih =>
    intro acc l hf hall
    have hcond : (!acc.failed.isEmpty && !false) = false := by
      rw [hf]
      simp
    have hrec := recordOutcome_success x (runOne x) acc
      (hall x (by simp))
    obtain ⟨acc2, heq, hsucc, hfail2, hskip⟩ := ih (recordOutcome x (runOne x) acc) l
      (by rw [hrec.2.1, hf]) (fun y hy => hall y (by simp [hy]))
    refine ⟨acc2, ?_, ?_, hfail2, ?_⟩
    · show BatchPublisher.publish_sequentially runOne false (x :: (pre ++ l)) acc = _
      rw [BatchPublisher.publish_sequentially, hcond]
      simp only [Bool.false_eq_true, if_false]
      exact heq
    · rw [hsucc, hrec.1, List.append_assoc]
      rfl
    · rw [hskip, hrec.2.2.1]

theorem seq_after_failure (runOne : String → Except PubError PublishReport) :
    ∀ (l : List String) (acc : BatchPublishResult), acc.failed ≠ [] →
    BatchPublisher.publish_sequentially runOne false l acc
      = { acc with skipped := acc.skipped ++ l } := by
  intro l
  induction l with
  | nil => intro acc _; simp [BatchPublisher.publish_sequentially]
  | cons x rest ih =>
    intro acc hf
    have hcond : (!acc.failed.isEmpty && !false) = true := by
      cases hacc : acc.failed with
      | nil => exact absurd hacc hf
      | cons y ys => simp
    rw [BatchPublisher.publish_sequentially, hcond]
    simp only [if_true]
    rw [ih { acc with skipped := acc.skipped ++ [x] } (by simpa using hf)]
    simp

/-- C5: in sequential batch mode with continue-on-error off, when the
attempts before `r` all succeed and the attempt for `r` fails, every
registry after `r` is recorded as skipped (in order, without being
attempted), the succeeded set is exactly the preceding registries, the
failed map holds exactly `r`, and consequently no subsequent registry
appears in succeeded or failed. -/
theorem sequential_skips_after_failure
    (runOne : String → Except PubError PublishReport)
    (pre : List String) (r : String) (post : List String)
    (hpre : ∀ x ∈ pre, attemptSucceeds (runOne x))
    (hfail : attemptFails (runOne r)) :
    (BatchPublisher.publish_sequentially runOne false (pre ++ r :: post)
        emptyBatchResult).skipped = post ∧
    (BatchPublisher.publish_sequentially runOne false (pre ++ r :: post)
        emptyBatchResult).succeeded = pre ∧
    (∃ msg, (BatchPublisher.publish_sequentially runOne false
        (pre ++ r :: post) emptyBatchResult).failed = [(r, msg)]) ∧
    (∀ x ∈ post, x ∉ pre → x ≠ r →
      x ∉ (BatchPublisher.publish_sequentially runOne false
        (pre ++ r :: post) emptyBatchResult).succeeded ∧
      (∀ m, (x, m) ∉ (BatchPublisher.publish_sequentially runOne false
        (pre ++ r :: post) emptyBatchResult).failed) ∧
      x ∈ (BatchPublisher.publish_sequentially runOne false
        (pre ++ r :: post) emptyBatchResult).skipped) := by
  obtain ⟨acc2, heq, hsucc, hfail2, hskip⟩ := seq_all_success runOne pre
    emptyBatchResult (r :: post) rfl hpre
  have hrec := recordOutcome_failure r (runOne r) acc2 hfail
  obtain ⟨msg, hmsg⟩ := hrec.2.1
  have hcond : (!acc2.failed.isEmpty && !false) = false := by
    rw [hfail2]
    simp
  have hstep : BatchPublisher.publish_sequentially runOne false (r :: post) acc2
      = BatchPublisher.publish_sequentially runOne false post
        (recordOutcome r (runOne r) acc2) := by
    rw [BatchPublisher.publish_sequentially, hcond]
    simp only [Bool.false_eq_true, if_false]
  have htail := seq_after_failure runOne post (recordOutcome r (runOne r) acc2)
    (by rw [hmsg, hfail2]; simp)
  have hres : BatchPublisher.publish_sequentially runOne false
      (pre ++ r :: post) emptyBatchResult
      = { recordOutcome r (runOne r) acc2 with
          skipped := (recordOutcome r (runOne r) acc2).skipped ++ post } := by
    rw [heq, hstep, htail]
  rw [hres]
  have hsk : (recordOutcome r (runOne r) acc2).skipped = [] := by
    rw [hrec.2.2.1, hskip]
    rfl
  have hsu : (recordOutcome r (runOne r) acc2).succeeded = pre := by
    rw [hrec.1, hsucc]
    rfl
  have hfa : (recordOutcome r (runOne r) acc2).failed = [(r, msg)] := by
    rw [hmsg, hfail2]
    rfl
  refine ⟨by rw [hsk]; rfl, hsu, ⟨msg, hfa⟩, ?_⟩
  intro x hx hxpre hxr
  refine ⟨?_, ?_, ?_⟩
  · rw [hsu]; exact hxpre
  · intro m hm
    rw [hfa] at hm
    simp at hm
    exact hxr hm.1
  · rw [hsk]
    simpa using hx

/-- Witness for `sequential_skips_after_failure`: npm succeeds, crates.io
fails, pypi is skipped. -/
theorem sequential_skips_after_failure_witness :
    (BatchPublisher.publish_sequentially runOneSeqEx false
        (["npm"] ++ "crates.io" :: ["pypi"]) emptyBatchResult).skipped
      = ["pypi"] ∧
    (BatchPublisher.publish_sequentially runOneSeqEx false
        (["npm"] ++ "crates.io" :: ["pypi"]) emptyBatchResult).succeeded
      = ["npm"] ∧
    ∃ msg, (BatchPublisher.publish_sequentially runOneSeqEx false
        (["npm"] ++ "crates.io" :: ["pypi"]) emptyBatchResult).failed
      = [("crates.io", msg)] := by
  have h := sequential_skips_after_failure runOneSeqEx ["npm"] "crates.io"
    ["pypi"]
    (by
      intro x hx
      have hx2 : x = "npm" := by simpa using hx
      subst hx2
      exact ⟨_, rfl, rfl⟩)
    (.inr ⟨.noRegistriesDetected, rfl⟩)
  exact ⟨h.1, h.2.1, h.2.2.1⟩

theorem par_all_success (runOne : String → Except PubError PublishReport)
    (pre : List String) :
    ∀ (acc : BatchPublishResult) (l : List String), acc.failed = [] →
    (∀ x ∈ pre, attemptSucceeds (runOne x)) →
    ∃ acc2, BatchPublisher.publish_in_parallel runOne false (pre ++ l) acc
        = BatchPublisher.publish_in_parallel runOne false l acc2 ∧
      acc2.succeeded = acc.succeeded ++ pre ∧
      acc2.failed = [] ∧
      acc2.skipped = acc.skipped ∧
      acc2.results.map Prod.fst = acc.results.map Prod.fst ++ pre := by
  induction pre with
  | nil => intro acc l hf _; exact ⟨acc, by simp, by simp, hf, rfl, by simp⟩
  | cons x pre ih =>
    intro acc l hf hall
    have hrec := recordOutcome_success x (runOne x) acc (hall x (by simp))
    have hcond : (!(recordOutcome x (runOne x) acc).failed.isEmpty && !false)
        = false := by
      rw [hrec.2.1, hf]
      simp
    obtain ⟨acc2, heq, hsucc, hfail2, hskip, hres⟩ :=
      ih (recordOutcome x (runOne x) acc) l (by rw [hrec.2.1, hf])
        (fun y hy => hall y (by simp [hy]))
    refine ⟨acc2, ?_, ?_, hfail2, ?_, ?_⟩
    · show BatchPublisher.publish_in_parallel runOne false (x :: (pre ++ l))
        acc = _
      rw [BatchPublisher.publish_in_parallel]
      rw [hcond]
      simp only [Bool.false_eq_true, if_false]
      exact heq
    · rw [hsucc, hrec.1, List.append_assoc]
      rfl
    · rw [hskip, hrec.2.2.1]
    · rw [hres, hrec.2.2.2, List.append_assoc]
      rfl

/-- C2 (amended): in concurrent batch mode with continue-on-error off, every
task is dispatched up front (the semaphore only bounds simultaneous
execution), results are collected in submission order, and collection stops
at the first failure: the batch outcome records exactly the registries up to
and including the first failing one — registries after it appear in neither
succeeded, failed, skipped, nor the per-registry result map, even though
their tasks were already launched. -/
theorem parallel_records_only_through_first_failure
    (runOne : String → Except PubError PublishReport)
    (pre : List String) (r : String) (post : List String)
    (hpre : ∀ x ∈ pre, attemptSucceeds (runOne x))
    (hfail : attemptFails (runOne r)) :
    ∀ res, res = BatchPublisher.publish_in_parallel runOne false
        (pre ++ r :: post) emptyBatchResult →
      res.succeeded = pre ∧
      (∃ msg, res.failed = [(r, msg)]) ∧
      res.skipped = [] ∧
      res.results.map Prod.fst = pre ++ [r] ∧
      (∀ x ∈ post, x ∉ pre → x ≠ r →
        x ∉ res.succeeded ∧ (∀ m, (x, m) ∉ res.failed) ∧ x ∉ res.skipped ∧
        (∀ rep, (x, rep) ∉ res.results)) := by
  intro res hres
  obtain ⟨acc2, heq, hsucc, hfail2, hskip, hkeys⟩ := par_all_success runOne
    pre emptyBatchResult (r :: post) rfl hpre
  have hrec := recordOutcome_failure r (runOne r) acc2 hfail
  obtain ⟨msg, hmsg⟩ := hrec.2.1
  have hcond : (!(recordOutcome r (runOne r) acc2).failed.isEmpty && !false)
      = true := by
    rw [hmsg, hfail2]
    simp
  have hstep : BatchPublisher.publish_in_parallel runOne false (r :: post) acc2
      = recordOutcome r (runOne r) acc2 := by
    rw [BatchPublisher.publish_in_parallel]
    rw [hcond]
    simp only [if_true]
  have hresval : res = recordOutcome r (runOne r) acc2 := by
    rw [hres, heq, hstep]
  have hsu : res.succeeded = pre := by
    rw [hresval, hrec.1, hsucc]
    rfl
  have hfa : res.failed = [(r, msg)] := by
    rw [hresval, hmsg, hfail2]
    rfl
  have hsk : res.skipped = [] := by
    rw [hresval, hrec.2.2.1, hskip]
    rfl
  have hke : res.results.map Prod.fst = pre ++ [r] := by
    rw [hresval, hrec.2.2.2, hkeys]
    rfl
  refine ⟨hsu, ⟨msg, hfa⟩, hsk, hke, ?_⟩
  intro x hx hxpre hxr
  refine ⟨?_, ?_, ?_, ?_⟩
  · rw [hsu]; exact hxpre
  · intro m hm
    rw [hfa] at hm
    simp at hm
    exact hxr hm.1
  · rw [hsk]
    simp
  · intro rep hm
    have : x ∈ res.results.map Prod.fst := List.mem_map_of_mem Prod.fst hm
    rw [hke] at this
    rcases List.mem_append.mp this with h1 | h1
    · exact hxpre h1
    · exact hxr (by simpa using h1)

/-- Witness for `parallel_records_only_through_first_failure`: npm succeeds,
crates.io fails, pypi was launched but its result is dropped. -/
theorem parallel_records_only_through_first_failure_witness :
    (BatchPublisher.publish_in_parallel runOneSeqEx false
        (["npm"] ++ "crates.io" :: ["pypi"]) emptyBatchResult).succeeded
      = ["npm"] ∧
    (BatchPublisher.publish_in_parallel runOneSeqEx false
        (["npm"] ++ "crates.io" :: ["pypi"]) emptyBatchResult).results.map
        Prod.fst
      = ["npm"] ++ ["crates.io"] ∧
    "pypi" ∉ (BatchPublisher.publish_in_parallel runOneSeqEx false
        (["npm"] ++ "crates.io" :: ["pypi"]) emptyBatchResult).skipped := by
  have h := parallel_records_only_through_first_failure runOneSeqEx ["npm"]
    "crates.io" ["pypi"]
    (by
      intro x hx
      have hx2 : x = "npm" := by simpa using hx
      subst hx2
      exact ⟨_, rfl, rfl⟩)
    (.inr ⟨.noRegistriesDetected, rfl⟩)
    (BatchPublisher.publish_in_parallel runOneSeqEx false
      (["npm"] ++ "crates.io" :: ["pypi"]) emptyBatchResult) rfl
  refine ⟨h.1, h.2.2.2.1, ?_⟩
  rw [h.2.2.1]
  simp

/-- C2 counterexample: a concurrent batch over ["npm", "pypi"] with
continue-on-error off in which npm (collected first) fails.  The pypi task
was launched — every task is spawned before collection starts — yet pypi
appears in neither succeeded, failed, skipped, nor the per-registry result
map of the batch outcome: its result is silently absent, contradicting the
claim that every launched task has its result recorded. -/
theorem parallel_silent_absence_counterexample :
    BatchPublisher.publish_to_multiple cfgNoDefault envOfBatchEx
        ["npm", "pypi"] batchOptsPar = .ok batchResEx ∧
    "pypi" ∈ (["npm", "pypi"] : List String) ∧
    "pypi" ∉ batchResEx.succeeded ∧
    "pypi" ∉ batchResEx.failed.map Prod.fst ∧
    "pypi" ∉ batchResEx.skipped ∧
    "pypi" ∉ batchResEx.results.map Prod.fst := by
  refine ⟨by decide, by decide, by decide, by decide, by decide, by decide⟩
